import Mathlib

/-!
# Verification of the Among Us wagering game engine

Shallow embedding of the round-based game simulation engine found in the
repository's game page component (`AmongUsGame`): roster initialization,
impostor selection, the round loop with statement turns and suspicion
scoring, the voting/elimination algorithm, win-condition evaluation,
settlement (`endGame`), and the start-action validation.

Modelling conventions:
* React `useState` fields become fields of an explicit `GameSession` record
  threaded through the functions; each `setX` call becomes a functional
  update of that record.
* The `gameRunningRef` cancellation ref is modelled by a `fuel : Nat`
  argument: every read of `gameRunningRef.current` consumes one unit and
  observes `true` while fuel is positive, `false` once it is exhausted
  (cancellation is monotone: once the user stops the game, every later
  read observes `false`).
* The external dialogue collaborator (`agent.agent.simpleChat`) is an
  oracle `Nat → Option String` indexed by a global turn counter; `none`
  models a throw/reject, `some text` a successful reply.
* `Math.random()` draws are oracles: the per-listener suspicion jitter
  `(Math.random() - 0.5) * 0.05` is a `Nat → Nat → ℚ` oracle (turn index,
  listener id), and the initial suspicion `Math.random() * 0.3` is a
  `Nat → ℚ` oracle over the agent index.
* `transferSTX` invocations are recorded as `TransferCall` values in the
  run result; their success flag is the `payoutOk : Bool` oracle.
* Log messages are structured (`GameMsg`) rather than raw template
  strings; each constructor corresponds to exactly one template literal
  of the source and carries the template's parameters.
* JS numbers are modelled as `ℚ` (the literals 0.1, 0.05, 0.3, 1.8 are
  exact in the source's arithmetic paths we reason about).
-/

/-- Case-insensitive lowering, modelling JS `String.prototype.toLowerCase`
on the ASCII names/keywords used by the game (written over the
character list so that it evaluates by reduction). -/
def lowerStr (s : String) : String := ⟨s.data.map Char.toLower⟩

/-- Test `charsBeginWith needle hay`: `needle` is an initial segment of `hay`. -/
def charsBeginWith : List Char → List Char → Bool
  | [], _ => true
  | _ :: _, [] => false
  | a :: as, b :: bs => a == b && charsBeginWith as bs

/-- Test `charsHaveSub needle hay`: `needle` occurs contiguously in `hay`;
models JS `String.prototype.includes`. -/
def charsHaveSub (needle : List Char) : List Char → Bool
  | [] => charsBeginWith needle []
  | c :: t => charsBeginWith needle (c :: t) || charsHaveSub needle t

/-- JS `hay.includes(needle)` on strings. -/
def strHas (hay needle : String) : Bool := charsHaveSub needle.toList hay.toList

/-- The four game phases of the component's `gameState` state variable. -/
inductive GamePhase
  | setup
  | selectImpostor
  | playing
  | finished
deriving DecidableEq, Repr

/-- The three `message` strings ever passed to `endGame`:
* `crewWin` = "Crew wins! The impostor has been eliminated!"
* `impostorElim` = "Impostor wins! They have eliminated enough crew members!"
* `impostorSurvive` = "Impostor wins by surviving all rounds!" -/
inductive EndMsg
  | crewWin
  | impostorElim
  | impostorSurvive
deriving DecidableEq, Repr

/-- Structured log messages; each constructor models one template literal
passed to `addToLog` in the source, carrying the template parameters. -/
inductive GameMsg
  /-- Models "Transferred {betAmount} STX to game address ..." -/
  | transferredBet (amount : ℚ)
  /-- Models "Game started! {name} is the secret impostor." -/
  | gameStarted (name : String)
  /-- Models "--- Round {currentRound} ---" -/
  | roundMarker (r : Nat)
  /-- Models "Voting Phase - Each agent votes for who they think is most suspicious!" -/
  | votingPhase
  /-- Models "{voter.name} votes for {target.name}" -/
  | votesFor (voterName targetName : String)
  /-- Models "No one was voted out this round." -/
  | noOneVotedOut
  /-- Models "{name} was voted out (THE IMPOSTOR!)" or "... (innocent crew member)" -/
  | votedOut (name : String) (wasImpostor : Bool)
  /-- Models "GAME OVER: {message}" -/
  | gameOver (m : EndMsg)
  /-- Models "Received {winnings} STX in winnings from game address ..." -/
  | receivedWinnings (amount : ℚ)
  /-- Models "You lost your bet of {betAmount} STX." -/
  | lostBet (amount : ℚ)
  /-- Models "Game stopped by user" -/
  | stoppedByUser
  /-- an agent statement line (a dialogue reply or the filler line) -/
  | statement (text : String)
deriving DecidableEq, Repr

/-- The `type` field of a `LogEntry` in the source. -/
inductive LogKind
  | system
  | agentMsg
  | vote
  | transaction
deriving DecidableEq, Repr

/-- One agent of the roster (the source's `Agent` interface; the
LLM-handle field `agent` is externalized into the dialogue oracle). -/
structure Agent where
  id : Nat
  name : String
  personality : String
  color : String
  avatar : String
  alive : Bool
  isImpostor : Bool
  suspicionLevel : ℚ
deriving DecidableEq, Repr

/-- One entry of the game log (the source's `LogEntry`; the wall-clock
`timestamp` is dropped, it feeds no logic). -/
structure LogEntry where
  kind : LogKind
  msg : GameMsg
  agent : Option Agent
deriving DecidableEq, Repr

/-- The component state relevant to the engine (the `useState` variables). -/
structure GameSession where
  gameState : GamePhase
  betAmount : ℚ
  userAddress : String
  userPrivateKey : String
  agents : List Agent
  selectedImpostor : Option Nat
  gameLog : List LogEntry
  round : Nat
  userBalance : Option ℚ
  error : Option String
  isGameRunning : Bool
deriving DecidableEq, Repr

/-- One `transferSTX` invocation (who pays whom how much). -/
structure TransferCall where
  fromAddr : String
  toAddr : String
  amount : ℚ
deriving DecidableEq, Repr

/-- How the round loop (`runGameLoop`) terminated:
`ended pw m` means `endGame(pw, m)` ran; `stopped` means the loop
returned early after observing the cancellation flag false during agent
statements, without calling `endGame`. -/
inductive LoopExit
  | ended (playerWins : Bool) (message : EndMsg)
  | stopped
deriving DecidableEq, Repr

/-- Observable outcome of a `runGameLoop` execution. -/
structure RunResult where
  session : GameSession
  payouts : List TransferCall
  exit : LoopExit
  roundsEntered : List Nat
  fuelLeft : Nat
deriving Repr

/-- The fallback game-controlled testnet address of the source. -/
def gameAddress : String := "ST1PQHQKV0RJXZFY1DGX8MNSNYVE3VGZJSRTPGZGM"

/-- An apostrophe character, as a string. -/
def apos : String := String.singleton (Char.ofNat 39)

/-- The fixed neutral filler line logged when a dialogue call fails:
"I'm not sure what to think about all this..." -/
def fillerText : String := "I" ++ apos ++ "m not sure what to think about all this..."

/-- The log entry produced when a dialogue call fails for an agent. -/
def fillerEntry (a : Agent) : LogEntry :=
  { kind := .agentMsg, msg := .statement fillerText, agent := some a }

/-- The `maxRounds` constant of `runGameLoop`. -/
def maxRounds : Nat := 8

/-- A predefined personality record. -/
structure Personality where
  name : String
  personality : String
  color : String
  avatar : String
deriving DecidableEq, Repr

/-- The six predefined personalities of the source (texts abridged only
by writing the apostrophes via `apos`). -/
def predefinedPersonalities : List Personality :=
  [ ⟨"Detective Dave",
     "You are a methodical detective who carefully analyzes evidence and behavior patterns. You ask probing questions and make logical deductions.",
     "#4A90E2", "🕵️"⟩,
    ⟨"Nervous Nancy",
     "You are very anxious and jumpy, often scared of being wrongly accused. You tend to panic and over-explain your actions.",
     "#F5A623", "😰"⟩,
    ⟨"Confident Carl",
     "You are very self-assured and often take charge of discussions. You" ++ apos ++ "re not afraid to make bold accusations.",
     "#7ED321", "😎"⟩,
    ⟨"Analytical Anna",
     "You approach everything with cold logic and statistical analysis. You speak in data and probabilities.",
     "#9013FE", "🤓"⟩,
    ⟨"Joker Jim",
     "You use humor to deflect tension and make light of serious situations. Even during accusations, you crack jokes.",
     "#FF6B6B", "😂"⟩,
    ⟨"Silent Sam",
     "You" ++ apos ++ "re quiet and observant, speaking only when necessary. When you do speak, it" ++ apos ++ "s usually very insightful.",
     "#50E3C2", "🤐"⟩ ]

/-- Build agents from a personality list starting at index `i`
(the `map((personality, index) => ...)` of `initializeAgents`). -/
def buildAgents (initSusp : Nat → ℚ) : Nat → List Personality → List Agent
  | _, [] => []
  | i, p :: ps =>
      { id := i, name := p.name, personality := p.personality,
        color := p.color, avatar := p.avatar, alive := true,
        isImpostor := false, suspicionLevel := initSusp i } ::
      buildAgents initSusp (i + 1) ps

/-- Models `initializeAgents(count)` of the source; `initSusp i` models the
`Math.random() * 0.3` initial suspicion draw for agent `i`. -/
def initializeAgents (count : Nat) (initSusp : Nat → ℚ) : List Agent :=
  buildAgents initSusp 0 (predefinedPersonalities.take count)

/-- Models `addToLog(type, message, agent)` of the source. -/
def addToLog (s : GameSession) (kind : LogKind) (msg : GameMsg)
    (agent : Option Agent := none) : GameSession :=
  { s with gameLog := s.gameLog ++ [{ kind := kind, msg := msg, agent := agent }] }

/-- Models `Math.max(0, Math.min(1, x))`. -/
def clamp01 (x : ℚ) : ℚ := max 0 (min 1 x)

/-- The accusation keyword test of `updateSuspicionLevels`:
the lowercased message includes "suspicious", "acting weird",
"strange" or "doubt". -/
def soundsSuspicious (message : String) : Bool :=
  strHas (lowerStr message) "suspicious" ||
  strHas (lowerStr message) "acting weird" ||
  strHas (lowerStr message) "strange" ||
  strHas (lowerStr message) "doubt"

/-- Models `updateSuspicionLevels(speakingAgent, message)` of the source; the
`setAgents` functional update is the returned list, and `jit a.id`
models the per-listener `(Math.random() - 0.5) * 0.05` draw. -/
def updateSuspicionLevels (speakingAgent : Agent) (message : String)
    (jit : Nat → ℚ) (agents : List Agent) : List Agent :=
  agents.map fun agent =>
    if agent.id = speakingAgent.id then agent
    else
      let agentMentioned := strHas (lowerStr message) (lowerStr agent.name)
      let base : ℚ := if agentMentioned || soundsSuspicious message then 0.1 else 0
      let withBonus : ℚ :=
        if speakingAgent.isImpostor && decide (0 < base) then base + 0.05 else base
      let suspicionChange := withBonus + jit agent.id
      { agent with suspicionLevel := clamp01 (agent.suspicionLevel + suspicionChange) }

/-- The impostor-voter reduce of `conductVoting`:
`crewmates.reduce((prev, current) => prev.suspicionLevel < current.suspicionLevel ? prev : current)`. -/
def minSuspReduce (prev : Agent) : List Agent → Agent
  | [] => prev
  | current :: rest =>
      minSuspReduce
        (if prev.suspicionLevel < current.suspicionLevel then prev else current) rest

/-- The crew-voter reduce of `conductVoting`:
`otherAgents.reduce((prev, current) => prev.suspicionLevel > current.suspicionLevel ? prev : current)`. -/
def maxSuspReduce (prev : Agent) : List Agent → Agent
  | [] => prev
  | current :: rest =>
      maxSuspReduce
        (if current.suspicionLevel < prev.suspicionLevel then prev else current) rest

/-- Target selection of one voter in `conductVoting`; `o :: os` is the
nonempty `otherAgents` list in roster order. -/
def pickTarget (voter o : Agent) (os : List Agent) : Agent :=
  if voter.isImpostor then
    match (o :: os).filter (fun a => !a.isImpostor) with
    | [] => o
    | c :: cs => minSuspReduce c cs
  else
    maxSuspReduce o os

/-- Models `votes[target.id]++` on the tally association list (keys are present
for every alive agent, inserted in roster order). -/
def bumpVote (targetId : Nat) : List (Nat × Nat) → List (Nat × Nat)
  | [] => []
  | (i, c) :: t =>
      if i = targetId then (i, c + 1) :: t else (i, c) :: bumpVote targetId t

/-- The voter loop of `conductVoting` over `aliveAgents`; returns the
updated session and tally, remaining fuel, and whether the loop ran to
completion (`false` = the cancellation flag was observed false and
`conductVoting` returned before tallying). -/
def castVotes (aliveAgents : List Agent) :
    List Agent → List (Nat × Nat) → GameSession → Nat →
    GameSession × List (Nat × Nat) × Nat × Bool
  | [], tally, s, fuel => (s, tally, fuel, true)
  | voter :: vs, tally, s, fuel =>
      if fuel = 0 then (s, tally, 0, false)
      else
        match aliveAgents.filter (fun a => a.id != voter.id) with
        | [] => castVotes aliveAgents vs tally s (fuel - 1)
        | o :: os =>
            let target := pickTarget voter o os
            let tally := bumpVote target.id tally
            let s := addToLog s .vote (.votesFor voter.name target.name) (some voter)
            castVotes aliveAgents vs tally s (fuel - 1)

/-- The tally-resolution reduce of `conductVoting`:
`voteEntries.reduce((max, current) => current[1] > max[1] ? current : max)`. -/
def maxVoteReduce (best : Nat × Nat) : List (Nat × Nat) → Nat × Nat
  | [] => best
  | current :: rest =>
      maxVoteReduce (if best.2 < current.2 then current else best) rest

/-- Resolution part of `conductVoting`: filter positive tallies, find the
max, set `alive = false` on the voted-out agent, log the outcome. -/
def resolveVotes (s : GameSession) (tally : List (Nat × Nat)) : GameSession :=
  match tally.filter (fun p => decide (0 < p.2)) with
  | [] => addToLog s .system .noOneVotedOut
  | e :: es =>
      let winner := maxVoteReduce e es
      match s.agents.find? (fun a => a.id = winner.1) with
      | none => s
      | some votedOutAgent =>
          let s :=
            { s with agents := s.agents.map fun agent =>
                if agent.id = winner.1 then { agent with alive := false } else agent }
          addToLog s .system (.votedOut votedOutAgent.name votedOutAgent.isImpostor)

/-- Models `conductVoting` of the source. Logs the phase banner, collects one
vote per living agent (cancellation checked before each vote), then —
only if the voter loop completed — resolves the tally. The tally is an
association list in alive-roster order; in the source it is a JS object
whose `Object.entries` enumerates its integer keys in ascending order,
which coincides with roster order because `initializeAgents` assigns
ids 0, 1, 2, … in roster order and filtering preserves it. -/
def conductVoting (s : GameSession) (fuel : Nat) : GameSession × Nat :=
  let s := addToLog s .system .votingPhase
  let aliveAgents := s.agents.filter (fun a => a.alive)
  let tally := aliveAgents.map fun a => (a.id, 0)
  match castVotes aliveAgents aliveAgents tally s fuel with
  | (s, tally, fuel, true) => (resolveVotes s tally, fuel)
  | (s, _, fuel, false) => (s, fuel)

/-- The win result of the post-vote check in `runGameLoop`. -/
inductive WinResult
  | crew
  | impostor
  | ongoing
deriving DecidableEq, Repr

/-- The `aliveCrewmates` count of `runGameLoop`. -/
def aliveCrewCount (agents : List Agent) : Nat :=
  (agents.filter fun a => a.alive && !a.isImpostor).length

/-- The `aliveImpostors` count of `runGameLoop`. -/
def aliveImpostorCount (agents : List Agent) : Nat :=
  (agents.filter fun a => a.alive && a.isImpostor).length

/-- The win-condition evaluation of `runGameLoop` (the
`aliveImpostors === 0` / `aliveImpostors >= aliveCrewmates` branches). -/
def evaluateWin (agents : List Agent) : WinResult :=
  if aliveImpostorCount agents = 0 then .crew
  else if aliveCrewCount agents ≤ aliveImpostorCount agents then .impostor
  else .ongoing

/-- Models `endGame(playerWins, message)` of the source: marks the game
finished, logs the GAME OVER line, and on a player win issues the
`betAmount * 1.8` payout transfer (recorded as a `TransferCall`;
`payoutOk` is the transfer's success flag), otherwise logs the
wager-loss line. -/
def endGame (s : GameSession) (playerWins : Bool) (message : EndMsg)
    (payoutOk : Bool) : GameSession × List TransferCall :=
  let s := { s with isGameRunning := false, gameState := .finished }
  let s := addToLog s .system (.gameOver message)
  if playerWins then
    let winnings := s.betAmount * 1.8
    let call : TransferCall :=
      { fromAddr := gameAddress, toAddr := s.userAddress, amount := winnings }
    if payoutOk then
      (addToLog { s with userBalance := s.userBalance.map (· + winnings) }
        .transaction (.receivedWinnings winnings), [call])
    else
      ({ s with error := some "Failed to transfer winnings" }, [call])
  else
    (addToLog s .system (.lostBet s.betAmount), [])

/-- The statement loop of one round: for each agent of the alive
snapshot, check the cancellation flag, then ask the dialogue oracle; on
success log the reply and update suspicion, on failure log the filler
line. Returns (session, next turn index, remaining fuel, completed?). -/
def statementsPhase (dialog : Nat → Option String) (jit : Nat → Nat → ℚ) :
    List Agent → GameSession → Nat → Nat → GameSession × Nat × Nat × Bool
  | [], s, turn, fuel => (s, turn, fuel, true)
  | agent :: rest, s, turn, fuel =>
      if fuel = 0 then (s, turn, 0, false)
      else
        match dialog turn with
        | some response =>
            let s := addToLog s .agentMsg (.statement response) (some agent)
            let s := { s with
              agents := updateSuspicionLevels agent response (jit turn) s.agents }
            statementsPhase dialog jit rest s (turn + 1) (fuel - 1)
        | none =>
            let s := addToLog s .agentMsg (.statement fillerText) (some agent)
            statementsPhase dialog jit rest s (turn + 1) (fuel - 1)

/-- The round loop of `runGameLoop` over the remaining round numbers.
A cancellation observation at a round boundary `break`s out to the
post-loop `endGame(false, impostorSurvive)` exactly as in the source;
a cancellation during statements `return`s without `endGame`. -/
def runRounds (dialog : Nat → Option String) (jit : Nat → Nat → ℚ)
    (payoutOk : Bool) :
    List Nat → GameSession → Nat → Nat → List Nat → RunResult
  | [], s, _, fuel, entered =>
      ⟨(endGame s false .impostorSurvive payoutOk).1,
       (endGame s false .impostorSurvive payoutOk).2,
       .ended false .impostorSurvive, entered, fuel⟩
  | r :: rest, s, turn, fuel, entered =>
      if fuel = 0 then
        ⟨(endGame s false .impostorSurvive payoutOk).1,
         (endGame s false .impostorSurvive payoutOk).2,
         .ended false .impostorSurvive, entered, 0⟩
      else
        let s := addToLog { s with round := r } .system (.roundMarker r)
        let currentAgents := s.agents.filter (fun a => a.alive)
        match statementsPhase dialog jit currentAgents s turn (fuel - 1) with
        | (s, _, fuel, false) => ⟨s, [], .stopped, entered ++ [r], fuel⟩
        | (s, turn, fuel, true) =>
            if r % 3 = 0 then
              let cv := conductVoting s fuel
              match evaluateWin cv.1.agents with
              | .crew =>
                  ⟨(endGame cv.1 true .crewWin payoutOk).1,
                   (endGame cv.1 true .crewWin payoutOk).2,
                   .ended true .crewWin, entered ++ [r], cv.2⟩
              | .impostor =>
                  ⟨(endGame cv.1 false .impostorElim payoutOk).1,
                   (endGame cv.1 false .impostorElim payoutOk).2,
                   .ended false .impostorElim, entered ++ [r], cv.2⟩
              | .ongoing =>
                  runRounds dialog jit payoutOk rest cv.1 turn cv.2 (entered ++ [r])
            else
              runRounds dialog jit payoutOk rest s turn fuel (entered ++ [r])

/-- Models `runGameLoop` of the source: rounds 1 through `maxRounds`. -/
def runGameLoop (s : GameSession) (dialog : Nat → Option String)
    (jit : Nat → Nat → ℚ) (fuel : Nat) (payoutOk : Bool) : RunResult :=
  runRounds dialog jit payoutOk (List.range' 1 maxRounds) s 0 fuel []

/-- Models `selectImpostor(agentId)` of the source. -/
def selectImpostor (s : GameSession) (agentId : Nat) : GameSession :=
  { s with
    selectedImpostor := some agentId,
    agents := s.agents.map fun agent => { agent with isImpostor := agent.id = agentId } }

/-- Models `startAmongUsGame` of the source: rejects when no impostor is
selected; otherwise enters `playing`, logs the designation, and runs the
game loop. -/
def startAmongUsGame (s : GameSession) (dialog : Nat → Option String)
    (jit : Nat → Nat → ℚ) (fuel : Nat) (payoutOk : Bool) :
    GameSession ⊕ RunResult :=
  match s.selectedImpostor with
  | none => .inl { s with error := some "Please select an impostor!" }
  | some selId =>
      let s := { s with error := none, gameState := .playing, isGameRunning := true }
      let name := ((s.agents.find? fun a => a.id = selId).map (·.name)).getD "undefined"
      let s := addToLog s .system (.gameStarted name)
      .inr (runGameLoop s dialog jit fuel payoutOk)

/-- The validation prelude of `startGame`, up to (but not including) the
escrow `transferSTX` call. Returns the updated session and whether the
escrow transfer is attempted (`true` = all validations passed). -/
def startGameCheck (s : GameSession) : GameSession × Bool :=
  if s.userAddress = "" || s.userPrivateKey = "" then
    ({ s with error := some "Please provide your wallet address and private key" }, false)
  else if s.betAmount < 0.1 then
    ({ s with error := some "Bet amount must be at least 0.1 STX" }, false)
  else
    match s.userBalance with
    | none => ({ s with error := some "Insufficient balance or balance not loaded" }, false)
    | some balance =>
        if balance < s.betAmount then
          ({ s with error := some "Insufficient balance or balance not loaded" }, false)
        else
          ({ s with error := none, isGameRunning := true }, true)

/-- Models `stopGame` of the source: clears the running flag and logs the
cancellation entry. -/
def stopGame (s : GameSession) : GameSession :=
  addToLog { s with isGameRunning := false } .system .stoppedByUser

/-! ## Observation helpers -/

/-- Number of log entries satisfying `p`. -/
def countLog (p : LogEntry → Bool) (log : List LogEntry) : Nat :=
  (log.filter p).length

/-- Entry is an agent statement. -/
def isAgentKind (e : LogEntry) : Bool :=
  match e.kind with
  | .agentMsg => true
  | _ => false

/-- Entry is a cast-vote line. -/
def isVoteKind (e : LogEntry) : Bool :=
  match e.kind with
  | .vote => true
  | _ => false

/-- Entry is the GAME OVER line of the surviving-impostor result. -/
def isSurviveOver (e : LogEntry) : Bool :=
  match e.msg with
  | .gameOver .impostorSurvive => true
  | _ => false

/-- Identity and impostor designation of each roster slot. -/
def impMap (agents : List Agent) : List (Nat × Bool) :=
  agents.map fun a => (a.id, a.isImpostor)

/-- Number of agents with the impostor designation. -/
def impostorCount (agents : List Agent) : Nat :=
  (agents.filter fun a => a.isImpostor).length

/-- Count 1 when the loop exit carries the surviving-impostor GAME OVER line. -/
def exitSurvive : LoopExit → Nat
  | .ended _ m => if m = .impostorSurvive then 1 else 0
  | .stopped => 0

lemma countLog_append (p : LogEntry → Bool) (l₁ l₂ : List LogEntry) :
    countLog p (l₁ ++ l₂) = countLog p l₁ + countLog p l₂ := by
  simp [countLog, List.filter_append]

lemma impMap_map (f : Agent → Agent)
    (h : ∀ a, (f a).id = a.id ∧ (f a).isImpostor = a.isImpostor) :
    ∀ l : List Agent, impMap (l.map f) = impMap l := by
  intro l
  induction l with
  | nil => rfl
  | cons a t ih =>
      simp only [impMap, List.map_cons] at *
      rw [(h a).1, (h a).2, ih]

lemma impMap_updateSuspicionLevels (sp : Agent) (m : String) (jit : Nat → ℚ)
    (agents : List Agent) :
    impMap (updateSuspicionLevels sp m jit agents) = impMap agents := by
  apply impMap_map
  intro a
  by_cases h : a.id = sp.id <;> simp [h]

lemma impostorCount_of_impMap {l₁ l₂ : List Agent}
    (h : impMap l₁ = impMap l₂) : impostorCount l₁ = impostorCount l₂ := by
  induction l₁ generalizing l₂ with
  | nil =>
      cases l₂ with
      | nil => rfl
      | cons b t => simp [impMap] at h
  | cons a t ih =>
      cases l₂ with
      | nil => simp [impMap] at h
      | cons b u =>
          simp only [impMap, List.map_cons, List.cons.injEq, Prod.mk.injEq] at h
          have ht : impMap t = impMap u := h.2
          have ht2 := ih ht
          simp only [impostorCount] at ht2 ⊢
          simp only [List.filter_cons, h.1.2]
          by_cases hb : b.isImpostor <;> simp [hb, ht2]

lemma evaluateWin_eq_crew (agents : List Agent) :
    evaluateWin agents = .crew ↔ aliveImpostorCount agents = 0 := by
  unfold evaluateWin
  split_ifs with h1 h2 <;> simp_all

lemma evaluateWin_eq_impostor (agents : List Agent) :
    evaluateWin agents = .impostor ↔
      aliveImpostorCount agents ≠ 0 ∧
      aliveCrewCount agents ≤ aliveImpostorCount agents := by
  unfold evaluateWin
  split_ifs with h1 h2 <;> simp_all

lemma evaluateWin_eq_ongoing (agents : List Agent) :
    evaluateWin agents = .ongoing ↔
      aliveImpostorCount agents ≠ 0 ∧
      aliveImpostorCount agents < aliveCrewCount agents := by
  unfold evaluateWin
  split_ifs with h1 h2 <;> simp_all

/-! ## Per-phase invariant lemmas -/

lemma countLog_singleton (p : LogEntry → Bool) (e : LogEntry) :
    countLog p [e] = if p e then 1 else 0 := by
  by_cases h : p e <;> simp [countLog, h]

lemma statementsPhase_spec (dialog : Nat → Option String) (jit : Nat → Nat → ℚ) :
    ∀ (snapshot : List Agent) (s : GameSession) (turn fuel : Nat)
      (s' : GameSession) (turn' fuel' : Nat) (ok : Bool),
      statementsPhase dialog jit snapshot s turn fuel = (s', turn', fuel', ok) →
      s'.gameState = s.gameState ∧
      s'.betAmount = s.betAmount ∧
      s'.userAddress = s.userAddress ∧
      s'.round = s.round ∧
      impMap s'.agents = impMap s.agents ∧
      fuel' ≤ fuel ∧
      countLog isAgentKind s'.gameLog + fuel' = countLog isAgentKind s.gameLog + fuel ∧
      countLog isVoteKind s'.gameLog = countLog isVoteKind s.gameLog ∧
      countLog isSurviveOver s'.gameLog = countLog isSurviveOver s.gameLog := by
  intro snapshot
  induction snapshot with
  | nil =>
      intro s turn fuel s' turn' fuel' ok h
      simp only [statementsPhase] at h
      cases h
      simp
  | cons agent rest ih =>
      intro s turn fuel s' turn' fuel' ok h
      simp only [statementsPhase] at h
      split at h
      · rename_i hf
        cases h
        simp [hf]
      · rename_i hf
        split at h
        · rename_i response hd
          obtain ⟨g1, g2, g3, g4, g5, g6, g7, g8, g9⟩ := ih _ _ _ _ _ _ _ h
          clear h
          refine ⟨g1, g2, g3, g4, g5.trans (impMap_updateSuspicionLevels _ _ _ _),
            by omega, ?_, ?_, ?_⟩
          · simp only [addToLog, countLog_append, countLog_singleton, isAgentKind] at g7
            simp at g7
            omega
          · simp only [addToLog, countLog_append, countLog_singleton, isVoteKind] at g8
            simp at g8
            exact g8
          · simp only [addToLog, countLog_append, countLog_singleton, isSurviveOver] at g9
            simp at g9
            exact g9
        · rename_i hd
          obtain ⟨g1, g2, g3, g4, g5, g6, g7, g8, g9⟩ := ih _ _ _ _ _ _ _ h
          clear h
          refine ⟨g1, g2, g3, g4, g5, by omega, ?_, ?_, ?_⟩
          · simp only [addToLog, countLog_append, countLog_singleton, isAgentKind] at g7
            simp at g7
            omega
          · simp only [addToLog, countLog_append, countLog_singleton, isVoteKind] at g8
            simp at g8
            exact g8
          · simp only [addToLog, countLog_append, countLog_singleton, isSurviveOver] at g9
            simp at g9
            exact g9

lemma castVotes_spec (aliveAgents : List Agent) :
    ∀ (voters : List Agent) (tally : List (Nat × Nat)) (s : GameSession) (fuel : Nat)
      (s' : GameSession) (tally' : List (Nat × Nat)) (fuel' : Nat) (ok : Bool),
      castVotes aliveAgents voters tally s fuel = (s', tally', fuel', ok) →
      s'.gameState = s.gameState ∧
      s'.betAmount = s.betAmount ∧
      s'.userAddress = s.userAddress ∧
      s'.round = s.round ∧
      s'.agents = s.agents ∧
      fuel' ≤ fuel ∧
      countLog isAgentKind s'.gameLog = countLog isAgentKind s.gameLog ∧
      countLog isVoteKind s'.gameLog + fuel' ≤ countLog isVoteKind s.gameLog + fuel ∧
      countLog isSurviveOver s'.gameLog = countLog isSurviveOver s.gameLog := by
  intro voters
  induction voters with
  | nil =>
      intro tally s fuel s' tally' fuel' ok h
      simp only [castVotes] at h
      cases h
      simp
  | cons voter vs ih =>
      intro tally s fuel s' tally' fuel' ok h
      simp only [castVotes] at h
      split at h
      · rename_i hf
        cases h
        simp [hf]
      · rename_i hf
        split at h
        · obtain ⟨g1, g2, g3, g4, g5, g6, g7, g8, g9⟩ := ih _ _ _ _ _ _ _ h
          clear h
          exact ⟨g1, g2, g3, g4, g5, by omega, g7, by omega, g9⟩
        · rename_i o os hoth
          obtain ⟨g1, g2, g3, g4, g5, g6, g7, g8, g9⟩ := ih _ _ _ _ _ _ _ h
          clear h
          refine ⟨g1, g2, g3, g4, g5, by omega, ?_, ?_, ?_⟩
          · simp only [addToLog, countLog_append, countLog_singleton, isAgentKind] at g7
            simp at g7
            exact g7
          · simp only [addToLog, countLog_append, countLog_singleton, isVoteKind] at g8
            simp at g8
            omega
          · simp only [addToLog, countLog_append, countLog_singleton, isSurviveOver] at g9
            simp at g9
            exact g9

lemma resolveVotes_spec (s : GameSession) (tally : List (Nat × Nat)) :
    (resolveVotes s tally).gameState = s.gameState ∧
    (resolveVotes s tally).betAmount = s.betAmount ∧
    (resolveVotes s tally).userAddress = s.userAddress ∧
    (resolveVotes s tally).round = s.round ∧
    impMap (resolveVotes s tally).agents = impMap s.agents ∧
    countLog isAgentKind (resolveVotes s tally).gameLog = countLog isAgentKind s.gameLog ∧
    countLog isVoteKind (resolveVotes s tally).gameLog = countLog isVoteKind s.gameLog ∧
    countLog isSurviveOver (resolveVotes s tally).gameLog = countLog isSurviveOver s.gameLog := by
  unfold resolveVotes
  cases hpos : tally.filter (fun p => decide (0 < p.2)) with
  | nil =>
      simp [hpos, addToLog, countLog_append, countLog_singleton,
        isAgentKind, isVoteKind, isSurviveOver]
  | cons e es =>
      cases hfind : s.agents.find? (fun a => a.id = (maxVoteReduce e es).1) with
      | none => simp [hpos, hfind]
      | some votedOutAgent =>
          have himp : impMap (s.agents.map fun agent =>
              if agent.id = (maxVoteReduce e es).1 then { agent with alive := false }
              else agent) = impMap s.agents := by
            apply impMap_map
            intro a
            by_cases h : a.id = (maxVoteReduce e es).1 <;> simp [h]
          simp [hpos, hfind, addToLog, countLog_append, countLog_singleton,
            isAgentKind, isVoteKind, isSurviveOver, himp]

lemma conductVoting_spec (s : GameSession) (fuel : Nat)
    (s' : GameSession) (fuel' : Nat)
    (h : conductVoting s fuel = (s', fuel')) :
    s'.gameState = s.gameState ∧
    s'.betAmount = s.betAmount ∧
    s'.userAddress = s.userAddress ∧
    s'.round = s.round ∧
    impMap s'.agents = impMap s.agents ∧
    fuel' ≤ fuel ∧
    countLog isAgentKind s'.gameLog = countLog isAgentKind s.gameLog ∧
    countLog isVoteKind s'.gameLog + fuel' ≤ countLog isVoteKind s.gameLog + fuel ∧
    countLog isSurviveOver s'.gameLog = countLog isSurviveOver s.gameLog := by
  have b7 : countLog isAgentKind (addToLog s .system .votingPhase).gameLog =
      countLog isAgentKind s.gameLog := by
    simp [addToLog, countLog_append, countLog_singleton, isAgentKind]
  have b8 : countLog isVoteKind (addToLog s .system .votingPhase).gameLog =
      countLog isVoteKind s.gameLog := by
    simp [addToLog, countLog_append, countLog_singleton, isVoteKind]
  have b9 : countLog isSurviveOver (addToLog s .system .votingPhase).gameLog =
      countLog isSurviveOver s.gameLog := by
    simp [addToLog, countLog_append, countLog_singleton, isSurviveOver]
  simp only [conductVoting] at h
  split at h
  · rename_i s₁ tally₁ fuel₁ heq
    cases h
    obtain ⟨c1, c2, c3, c4, c5, c6, c7, c8, c9⟩ := castVotes_spec _ _ _ _ _ _ _ _ _ heq
    obtain ⟨r1, r2, r3, r4, r5, r6, r7, r8⟩ := resolveVotes_spec s₁ tally₁
    refine ⟨r1.trans c1, r2.trans c2, r3.trans c3, r4.trans c4,
      r5.trans (by rw [c5]; rfl), c6, ?_, ?_, ?_⟩
    · omega
    · omega
    · omega
  · rename_i s₁ tally₁ fuel₁ heq
    cases h
    obtain ⟨c1, c2, c3, c4, c5, c6, c7, c8, c9⟩ := castVotes_spec _ _ _ _ _ _ _ _ _ heq
    refine ⟨c1, c2, c3, c4, by rw [c5]; rfl, c6, ?_, ?_, ?_⟩
    · omega
    · omega
    · omega

lemma endGame_spec (s : GameSession) (pw : Bool) (m : EndMsg) (payoutOk : Bool) :
    (endGame s pw m payoutOk).1.gameState = .finished ∧
    (endGame s pw m payoutOk).1.agents = s.agents ∧
    (endGame s pw m payoutOk).1.betAmount = s.betAmount ∧
    (endGame s pw m payoutOk).1.userAddress = s.userAddress ∧
    (endGame s pw m payoutOk).2 =
      (if pw then
        [{ fromAddr := gameAddress, toAddr := s.userAddress,
           amount := s.betAmount * 1.8 }]
       else []) ∧
    countLog isAgentKind (endGame s pw m payoutOk).1.gameLog =
      countLog isAgentKind s.gameLog ∧
    countLog isVoteKind (endGame s pw m payoutOk).1.gameLog =
      countLog isVoteKind s.gameLog ∧
    countLog isSurviveOver (endGame s pw m payoutOk).1.gameLog =
      countLog isSurviveOver s.gameLog + (if m = .impostorSurvive then 1 else 0) ∧
    (pw = false →
      ({ kind := .system, msg := .lostBet s.betAmount, agent := none } : LogEntry) ∈
        (endGame s pw m payoutOk).1.gameLog) := by
  unfold endGame
  cases pw <;> cases payoutOk <;> cases m <;>
    simp [addToLog, countLog, List.filter_append, List.filter,
      isAgentKind, isVoteKind, isSurviveOver]

/-- Master invariant of the round loop, by induction on the remaining
round numbers. Relates every observable of a `runRounds` execution to
the starting session. -/
lemma runRounds_inv (dialog : Nat → Option String) (jit : Nat → Nat → ℚ)
    (payoutOk : Bool) :
    ∀ (rounds : List Nat) (s : GameSession) (turn fuel : Nat)
      (entered : List Nat) (R : RunResult),
      runRounds dialog jit payoutOk rounds s turn fuel entered = R →
      R.session.betAmount = s.betAmount ∧
      R.session.userAddress = s.userAddress ∧
      impMap R.session.agents = impMap s.agents ∧
      R.payouts = (match R.exit with
        | .ended true _ =>
            [{ fromAddr := gameAddress, toAddr := s.userAddress,
               amount := s.betAmount * 1.8 }]
        | _ => []) ∧
      (∀ m, R.exit = .ended true m →
        m = .crewWin ∧ aliveImpostorCount R.session.agents = 0) ∧
      (∀ m, R.exit = .ended false m →
        ({ kind := .system, msg := .lostBet s.betAmount, agent := none } : LogEntry)
          ∈ R.session.gameLog) ∧
      (∃ k, k ≤ rounds.length ∧ R.roundsEntered = entered ++ rounds.take k) ∧
      countLog isSurviveOver R.session.gameLog =
        countLog isSurviveOver s.gameLog + exitSurvive R.exit ∧
      (R.exit = .stopped → R.session.gameState = s.gameState) ∧
      (∀ pw m, R.exit = .ended pw m → R.session.gameState = .finished) ∧
      R.fuelLeft ≤ fuel ∧
      countLog isAgentKind R.session.gameLog + countLog isVoteKind R.session.gameLog +
          R.roundsEntered.length + R.fuelLeft
        ≤ countLog isAgentKind s.gameLog + countLog isVoteKind s.gameLog +
          entered.length + fuel ∧
      (∀ pw m, R.exit = .ended pw m → m ≠ .impostorSurvive →
        ∃ r, r ∈ rounds ∧ R.roundsEntered.getLast? = some r ∧ r % 3 = 0) ∧
      (∀ pw, R.exit = .ended pw .impostorElim →
        evaluateWin R.session.agents = .impostor) := by
  intro rounds
  induction rounds with
  | nil =>
      intro s turn fuel entered R h
      simp only [runRounds] at h
      subst h; dsimp only
      obtain ⟨e1, e2, e3, e4, e5, e6, e7, e8, e9⟩ :=
        endGame_spec s false .impostorSurvive payoutOk
      refine ⟨e3, e4, by rw [e2], by simpa using e5, ?_, ?_,
        ⟨0, by simp, by simp⟩, ?_, ?_, ?_, le_refl _, ?_, ?_, ?_⟩
      · intro m hm
        simp at hm
      · intro m _
        exact e9 rfl
      · have e8' := e8
        simp at e8'
        simp [exitSurvive]
        omega
      · intro hstop
        simp at hstop
      · intro pw m _
        exact e1
      · omega
      · intro pw m hm hne
        simp only [LoopExit.ended.injEq] at hm
        exact absurd hm.2.symm hne
      · intro pw hm
        simp at hm
  | cons r rest ih =>
      intro s turn fuel entered R h
      simp only [runRounds] at h
      split at h
      · rename_i hf
        subst h; dsimp only
        obtain ⟨e1, e2, e3, e4, e5, e6, e7, e8, e9⟩ :=
          endGame_spec s false .impostorSurvive payoutOk
        refine ⟨e3, e4, by rw [e2], by simpa using e5, ?_, ?_,
          ⟨0, by simp, by simp⟩, ?_, ?_, ?_, by omega, ?_, ?_, ?_⟩
        · intro m hm
          simp at hm
        · intro m _
          exact e9 rfl
        · have e8' := e8
          simp at e8'
          simp [exitSurvive]
          omega
        · intro hstop
          simp at hstop
        · intro pw m _
          exact e1
        · omega
        · intro pw m hm hne
          simp only [LoopExit.ended.injEq] at hm
          exact absurd hm.2.symm hne
        · intro pw hm
          simp at hm
      · rename_i hf
        split at h
        · rename_i s₂ t₂ f₂ heq
          subst h; dsimp only
          obtain ⟨g1, g2, g3, g4, g5, g6, g7, g8, g9⟩ :=
            statementsPhase_spec dialog jit _ _ _ _ _ _ _ _ heq
          have g1' : s₂.gameState = s.gameState := g1
          have g2' : s₂.betAmount = s.betAmount := g2
          have g3' : s₂.userAddress = s.userAddress := g3
          have g5' : impMap s₂.agents = impMap s.agents := g5
          have bA : countLog isAgentKind
              (addToLog { s with round := r } .system (.roundMarker r)).gameLog =
              countLog isAgentKind s.gameLog := by
            simp [addToLog, countLog_append, countLog_singleton, isAgentKind]
          have bV : countLog isVoteKind
              (addToLog { s with round := r } .system (.roundMarker r)).gameLog =
              countLog isVoteKind s.gameLog := by
            simp [addToLog, countLog_append, countLog_singleton, isVoteKind]
          have bS : countLog isSurviveOver
              (addToLog { s with round := r } .system (.roundMarker r)).gameLog =
              countLog isSurviveOver s.gameLog := by
            simp [addToLog, countLog_append, countLog_singleton, isSurviveOver]
          refine ⟨g2', g3', g5', rfl, ?_, ?_, ⟨1, by simp, by simp⟩,
            ?_, ?_, ?_, ?_, ?_, ?_, ?_⟩
          · intro m hm
            simp at hm
          · intro m hm
            simp at hm
          · simp [exitSurvive]
            omega
          · intro _
            exact g1'
          · intro pw m hm
            simp at hm
          · omega
          · simp only [List.length_append, List.length_singleton]
            omega
          · intro pw m hm
            simp at hm
          · intro pw hm
            simp at hm
        · rename_i s₂ t₂ f₂ heq
          obtain ⟨g1, g2, g3, g4, g5, g6, g7, g8, g9⟩ :=
            statementsPhase_spec dialog jit _ _ _ _ _ _ _ _ heq
          have g1' : s₂.gameState = s.gameState := g1
          have g2' : s₂.betAmount = s.betAmount := g2
          have g3' : s₂.userAddress = s.userAddress := g3
          have g5' : impMap s₂.agents = impMap s.agents := g5
          have bA : countLog isAgentKind
              (addToLog { s with round := r } .system (.roundMarker r)).gameLog =
              countLog isAgentKind s.gameLog := by
            simp [addToLog, countLog_append, countLog_singleton, isAgentKind]
          have bV : countLog isVoteKind
              (addToLog { s with round := r } .system (.roundMarker r)).gameLog =
              countLog isVoteKind s.gameLog := by
            simp [addToLog, countLog_append, countLog_singleton, isVoteKind]
          have bS : countLog isSurviveOver
              (addToLog { s with round := r } .system (.roundMarker r)).gameLog =
              countLog isSurviveOver s.gameLog := by
            simp [addToLog, countLog_append, countLog_singleton, isSurviveOver]
          split at h
          · rename_i hr3
            obtain ⟨c1, c2, c3, c4, c5, c6, c7, c8, c9⟩ :=
              conductVoting_spec s₂ f₂ (conductVoting s₂ f₂).1 (conductVoting s₂ f₂).2 rfl
            have c1' : (conductVoting s₂ f₂).1.gameState = s.gameState := c1.trans g1'
            have c2' : (conductVoting s₂ f₂).1.betAmount = s.betAmount := c2.trans g2'
            have c3' : (conductVoting s₂ f₂).1.userAddress = s.userAddress := c3.trans g3'
            have c5' : impMap (conductVoting s₂ f₂).1.agents = impMap s.agents :=
              c5.trans g5'
            split at h
            · rename_i heqW
              subst h; dsimp only
              obtain ⟨e1, e2, e3, e4, e5, e6, e7, e8, e9⟩ :=
                endGame_spec (conductVoting s₂ f₂).1 true .crewWin payoutOk
              refine ⟨by rw [e3]; exact c2', by rw [e4]; exact c3',
                by rw [e2]; exact c5', by simp [e5, c2', c3'], ?_, ?_,
                ⟨1, by simp, by simp⟩, ?_, ?_, ?_, by omega, ?_, ?_, ?_⟩
              · intro m hm
                simp only [LoopExit.ended.injEq] at hm
                refine ⟨hm.2.symm, ?_⟩
                rw [e2]
                exact (evaluateWin_eq_crew _).mp heqW
              · intro m hm
                simp at hm
              · have e8' := e8
                simp at e8'
                simp [exitSurvive]
                omega
              · intro hstop
                simp at hstop
              · intro pw m _
                exact e1
              · simp only [List.length_append, List.length_singleton]
                omega
              · intro pw m hm hne
                exact ⟨r, List.mem_cons_self _ _, by simp, hr3⟩
              · intro pw hm
                simp at hm
            · rename_i heqW
              subst h; dsimp only
              obtain ⟨e1, e2, e3, e4, e5, e6, e7, e8, e9⟩ :=
                endGame_spec (conductVoting s₂ f₂).1 false .impostorElim payoutOk
              refine ⟨by rw [e3]; exact c2', by rw [e4]; exact c3',
                by rw [e2]; exact c5', by simpa using e5, ?_, ?_,
                ⟨1, by simp, by simp⟩, ?_, ?_, ?_, by omega, ?_, ?_, ?_⟩
              · intro m hm
                simp at hm
              · intro m _
                have := e9 rfl
                rwa [c2'] at this
              · have e8' := e8
                simp at e8'
                simp [exitSurvive]
                omega
              · intro hstop
                simp at hstop
              · intro pw m _
                exact e1
              · simp only [List.length_append, List.length_singleton]
                omega
              · intro pw m hm hne
                exact ⟨r, List.mem_cons_self _ _, by simp, hr3⟩
              · intro pw _
                rw [e2]
                exact heqW
            · rename_i heqW
              obtain ⟨i1, i2, i3, i4, i5, i6, i7, i8, i9, i10, i11, i12, i13, i14⟩ :=
                ih _ _ _ _ _ h
              obtain ⟨k, hk, hke⟩ := i7
              refine ⟨i1.trans c2', i2.trans c3', i3.trans c5', ?_, i5, ?_,
                ⟨k + 1, by simpa using hk, ?_⟩, ?_, ?_, i10, by omega, ?_, ?_, i14⟩
              · rw [i4, c2', c3']
              · intro m hm
                have := i6 m hm
                rwa [c2'] at this
              · rw [hke]
                simp [List.take_succ_cons, List.append_assoc]
              · rw [i8]
                omega
              · intro hstop
                exact (i9 hstop).trans c1'
              · simp only [List.length_append, List.length_singleton] at i12
                omega
              · intro pw m hm hne
                obtain ⟨r', hr', hlast, hmod⟩ := i13 pw m hm hne
                exact ⟨r', List.mem_cons_of_mem _ hr', hlast, hmod⟩
          · rename_i hr3
            obtain ⟨i1, i2, i3, i4, i5, i6, i7, i8, i9, i10, i11, i12, i13, i14⟩ :=
              ih _ _ _ _ _ h
            obtain ⟨k, hk, hke⟩ := i7
            refine ⟨i1.trans g2', i2.trans g3', i3.trans g5', ?_, i5, ?_,
              ⟨k + 1, by simpa using hk, ?_⟩, ?_, ?_, i10, by omega, ?_, ?_, i14⟩
            · rw [i4, g2', g3']
            · intro m hm
              have := i6 m hm
              rwa [g2'] at this
            · rw [hke]
              simp [List.take_succ_cons, List.append_assoc]
            · rw [i8]
              omega
            · intro hstop
              exact (i9 hstop).trans g1'
            · simp only [List.length_append, List.length_singleton] at i12
              omega
            · intro pw m hm hne
              obtain ⟨r', hr', hlast, hmod⟩ := i13 pw m hm hne
              exact ⟨r', List.mem_cons_of_mem _ hr', hlast, hmod⟩

/-! ## Characterizations of the reduce idioms -/

/-- The impostor-voter reduce returns a minimal-suspicion element, and on
ties the last such element: the list decomposes around the result with
every later element strictly more suspicious. -/
lemma minSuspReduce_spec :
    ∀ (l : List Agent) (a : Agent),
      (∀ x ∈ a :: l, (minSuspReduce a l).suspicionLevel ≤ x.suspicionLevel) ∧
      ∃ l₁ l₂, a :: l = l₁ ++ minSuspReduce a l :: l₂ ∧
        ∀ x ∈ l₂, (minSuspReduce a l).suspicionLevel < x.suspicionLevel := by
  intro l
  induction l with
  | nil =>
      intro a
      refine ⟨?_, [], [], rfl, by simp⟩
      intro x hx
      simp only [List.mem_singleton] at hx
      subst hx
      exact le_refl _
  | cons c cs ih =>
      intro a
      simp only [minSuspReduce]
      by_cases hac : a.suspicionLevel < c.suspicionLevel
      · rw [if_pos hac]
        obtain ⟨hmin, l₁, l₂, hdec, hstrict⟩ := ih a
        constructor
        · intro x hx
          rcases List.mem_cons.mp hx with rfl | hx'
          · exact hmin _ (List.mem_cons_self _ _)
          rcases List.mem_cons.mp hx' with rfl | hx''
          · exact le_of_lt (lt_of_le_of_lt (hmin _ (List.mem_cons_self _ _)) hac)
          · exact hmin x (List.mem_cons_of_mem _ hx'')
        · cases l₁ with
          | nil =>
              simp only [List.nil_append] at hdec
              injection hdec with h1 h2
              refine ⟨[], c :: cs, by rw [List.nil_append, ← h1], ?_⟩
              intro x hx
              rcases List.mem_cons.mp hx with rfl | hx'
              · rw [← h1]
                exact hac
              · rw [h2] at hx'
                exact hstrict x hx'
          | cons b l₁' =>
              injection hdec with h1 h2
              rw [List.append_eq] at h2
              exact ⟨a :: c :: l₁', l₂, by rw [List.cons_append, List.cons_append, ← h2], hstrict⟩
      · rw [if_neg hac]
        obtain ⟨hmin, l₁, l₂, hdec, hstrict⟩ := ih c
        have hca : c.suspicionLevel ≤ a.suspicionLevel := le_of_not_lt hac
        constructor
        · intro x hx
          rcases List.mem_cons.mp hx with rfl | hx'
          · exact le_trans (hmin _ (List.mem_cons_self _ _)) hca
          · exact hmin x hx'
        · exact ⟨a :: l₁, l₂, by rw [List.cons_append, ← hdec], hstrict⟩

/-- The crew-voter reduce returns a maximal-suspicion element, and on
ties the last such element. -/
lemma maxSuspReduce_spec :
    ∀ (l : List Agent) (a : Agent),
      (∀ x ∈ a :: l, x.suspicionLevel ≤ (maxSuspReduce a l).suspicionLevel) ∧
      ∃ l₁ l₂, a :: l = l₁ ++ maxSuspReduce a l :: l₂ ∧
        ∀ x ∈ l₂, x.suspicionLevel < (maxSuspReduce a l).suspicionLevel := by
  intro l
  induction l with
  | nil =>
      intro a
      refine ⟨?_, [], [], rfl, by simp⟩
      intro x hx
      simp only [List.mem_singleton] at hx
      subst hx
      exact le_refl _
  | cons c cs ih =>
      intro a
      simp only [maxSuspReduce]
      by_cases hca : c.suspicionLevel < a.suspicionLevel
      · rw [if_pos hca]
        obtain ⟨hmax, l₁, l₂, hdec, hstrict⟩ := ih a
        constructor
        · intro x hx
          rcases List.mem_cons.mp hx with rfl | hx'
          · exact hmax _ (List.mem_cons_self _ _)
          rcases List.mem_cons.mp hx' with rfl | hx''
          · exact le_of_lt (lt_of_lt_of_le hca (hmax _ (List.mem_cons_self _ _)))
          · exact hmax x (List.mem_cons_of_mem _ hx'')
        · cases l₁ with
          | nil =>
              simp only [List.nil_append] at hdec
              injection hdec with h1 h2
              refine ⟨[], c :: cs, by rw [List.nil_append, ← h1], ?_⟩
              intro x hx
              rcases List.mem_cons.mp hx with rfl | hx'
              · rw [← h1]
                exact hca
              · rw [h2] at hx'
                exact hstrict x hx'
          | cons b l₁' =>
              injection hdec with h1 h2
              rw [List.append_eq] at h2
              exact ⟨a :: c :: l₁', l₂, by rw [List.cons_append, List.cons_append, ← h2], hstrict⟩
      · rw [if_neg hca]
        obtain ⟨hmax, l₁, l₂, hdec, hstrict⟩ := ih c
        have hac : a.suspicionLevel ≤ c.suspicionLevel := le_of_not_lt hca
        constructor
        · intro x hx
          rcases List.mem_cons.mp hx with rfl | hx'
          · exact le_trans hac (hmax _ (List.mem_cons_self _ _))
          · exact hmax x hx'
        · exact ⟨a :: l₁, l₂, by rw [List.cons_append, ← hdec], hstrict⟩

/-- The tally-resolution reduce returns a maximal-count entry, and on
ties the first such entry: every earlier entry has a strictly smaller
count. -/
lemma maxVoteReduce_spec :
    ∀ (l : List (Nat × Nat)) (e : Nat × Nat),
      (∀ x ∈ e :: l, x.2 ≤ (maxVoteReduce e l).2) ∧
      ∃ l₁ l₂, e :: l = l₁ ++ maxVoteReduce e l :: l₂ ∧
        ∀ x ∈ l₁, x.2 < (maxVoteReduce e l).2 := by
  intro l
  induction l with
  | nil =>
      intro e
      refine ⟨?_, [], [], rfl, by simp⟩
      intro x hx
      simp only [List.mem_singleton] at hx
      subst hx
      exact le_refl _
  | cons c cs ih =>
      intro e
      simp only [maxVoteReduce]
      by_cases hec : e.2 < c.2
      · rw [if_pos hec]
        obtain ⟨hmax, l₁, l₂, hdec, hstrict⟩ := ih c
        constructor
        · intro x hx
          rcases List.mem_cons.mp hx with rfl | hx'
          · exact le_of_lt (lt_of_lt_of_le hec (hmax _ (List.mem_cons_self _ _)))
          · exact hmax x hx'
        · refine ⟨e :: l₁, l₂, by rw [List.cons_append, ← hdec], ?_⟩
          intro x hx
          rcases List.mem_cons.mp hx with rfl | hx'
          · exact lt_of_lt_of_le hec (hmax _ (List.mem_cons_self _ _))
          · exact hstrict x hx'
      · rw [if_neg hec]
        obtain ⟨hmax, l₁, l₂, hdec, hstrict⟩ := ih e
        have hce : c.2 ≤ e.2 := le_of_not_lt hec
        constructor
        · intro x hx
          rcases List.mem_cons.mp hx with rfl | hx'
          · exact hmax _ (List.mem_cons_self _ _)
          rcases List.mem_cons.mp hx' with rfl | hx''
          · exact le_trans hce (hmax _ (List.mem_cons_self _ _))
          · exact hmax x (List.mem_cons_of_mem _ hx'')
        · cases l₁ with
          | nil =>
              simp only [List.nil_append] at hdec
              injection hdec with h1 h2
              exact ⟨[], c :: cs, by rw [List.nil_append, ← h1], by simp⟩
          | cons b l₁' =>
              injection hdec with h1 h2
              rw [List.append_eq] at h2
              refine ⟨e :: c :: l₁', l₂, by rw [List.cons_append, List.cons_append, ← h2], ?_⟩
              intro x hx
              rcases List.mem_cons.mp hx with rfl | hx'
              · have hb := hstrict _ (List.mem_cons_self b l₁')
                rwa [← h1] at hb
              rcases List.mem_cons.mp hx' with rfl | hx''
              · refine lt_of_le_of_lt hce ?_
                have hb := hstrict _ (List.mem_cons_self b l₁')
                rwa [← h1] at hb
              · exact hstrict x (List.mem_cons_of_mem _ hx'')

/-! ## Dialogue-failure, roster and range helpers -/

/-- When every dialogue call fails, the statement loop logs exactly one
filler line per snapshot agent, leaves the roster untouched, and
completes the round. -/
lemma statementsPhase_allFail (jit : Nat → Nat → ℚ) :
    ∀ (snapshot : List Agent) (s : GameSession) (turn fuel : Nat),
      snapshot.length ≤ fuel →
      statementsPhase (fun _ => none) jit snapshot s turn fuel =
        ({ s with gameLog := s.gameLog ++ snapshot.map fillerEntry },
         turn + snapshot.length, fuel - snapshot.length, true) := by
  intro snapshot
  induction snapshot with
  | nil =>
      intro s turn fuel h
      simp [statementsPhase]
  | cons a t ih =>
      intro s turn fuel h
      simp only [List.length_cons] at h
      have hf : fuel ≠ 0 := by omega
      simp only [statementsPhase, if_neg hf]
      rw [ih _ _ _ (by omega)]
      have ht : turn + 1 + t.length = turn + (t.length + 1) := by omega
      have hfu : fuel - 1 - t.length = fuel - (t.length + 1) := by omega
      simp [addToLog, fillerEntry, List.append_assoc, ht, hfu]

lemma buildAgents_ids (initSusp : Nat → ℚ) :
    ∀ (ps : List Personality) (i : Nat),
      (buildAgents initSusp i ps).map (fun a => a.id) = List.range' i ps.length := by
  intro ps
  induction ps with
  | nil => intro i; rfl
  | cons p pt ih =>
      intro i
      simp [buildAgents, List.range', ih]

lemma range'_mem_le : ∀ (n s x : Nat), x ∈ List.range' s n → s ≤ x := by
  intro n
  induction n with
  | zero => intro s x hx; simp [List.range'] at hx
  | succ m ih =>
      intro s x hx
      simp only [List.range'] at hx
      rcases List.mem_cons.mp hx with rfl | hx'
      · exact le_refl _
      · exact le_trans (Nat.le_succ _) (ih _ _ hx')

lemma range'_nodup : ∀ (n s : Nat), (List.range' s n).Nodup := by
  intro n
  induction n with
  | zero => intro s; simp [List.range']
  | succ m ih =>
      intro s
      simp only [List.range', List.nodup_cons]
      refine ⟨?_, ih _⟩
      intro hmem
      have := range'_mem_le _ _ _ hmem
      omega

lemma range'_take : ∀ (k n s : Nat), k ≤ n →
    (List.range' s n).take k = List.range' s k := by
  intro k
  induction k with
  | zero => intro n s _; rfl
  | succ j ih =>
      intro n s h
      cases n with
      | zero => omega
      | succ m =>
          simp only [List.range', List.take_succ_cons]
          rw [ih m (s + 1) (by omega)]

lemma initializeAgents_ids_nodup (count : Nat) (initSusp : Nat → ℚ) :
    ((initializeAgents count initSusp).map (fun a => a.id)).Nodup := by
  rw [initializeAgents, buildAgents_ids]
  exact range'_nodup _ _

lemma selectImpostor_count (s : GameSession) (agentId : Nat)
    (hmem : agentId ∈ s.agents.map (fun a => a.id))
    (hnodup : (s.agents.map (fun a => a.id)).Nodup) :
    impostorCount (selectImpostor s agentId).agents = 1 := by
  have key : ∀ l : List Agent,
      impostorCount (l.map (fun agent =>
        { agent with isImpostor := agent.id = agentId })) =
        (l.map (fun a => a.id)).count agentId := by
    intro l
    induction l with
    | nil => rfl
    | cons a t ih =>
        simp only [List.map_cons, impostorCount, List.filter_cons] at *
        by_cases h : a.id = agentId
        · simp [h, ih, List.count_cons]
        · simp [h, ih, List.count_cons]
  simp only [selectImpostor]
  rw [key]
  exact List.count_eq_one_of_mem hnodup hmem


/-! ## Concrete sessions and oracles used by witnesses and counterexamples -/

/-- The initial `useState` values of the component. -/
def initialSession : GameSession :=
  { gameState := .setup, betAmount := 0.1, userAddress := "",
    userPrivateKey := "", agents := [], selectedImpostor := none,
    gameLog := [], round := 0, userBalance := none, error := none,
    isGameRunning := false }

/-- Shorthand for building a test agent. -/
def mkAgent (i : Nat) (nm : String) (al imp : Bool) (susp : ℚ) : Agent :=
  { id := i, name := nm, personality := "", color := "", avatar := "",
    alive := al, isImpostor := imp, suspicionLevel := susp }

/-- Dialogue oracle on which every call fails. -/
def noDialog : Nat → Option String := fun _ => none

/-- Jitter oracle that always draws zero. -/
def zeroJit : Nat → Nat → ℚ := fun _ _ => 0

lemma range'_length : ∀ (n s : Nat), (List.range' s n).length = n := by
  intro n
  induction n with
  | zero => intro s; rfl
  | succ m ih => intro s; simp [List.range', ih]

/-! ## Claims -/

/-- C2 counterexample roster: a single dead impostor. Both the alive
impostor count and the alive crew count are zero. -/
def deadImpRoster : List Agent := [mkAgent 0 "A" false true 0]

/-- C2, counterexample: on the all-dead roster the claimed
"impostor exactly when count(alive∧isImpostor) ≥ count(alive∧¬isImpostor)"
fails — the condition holds (0 ≥ 0) yet the code returns `crew`, because
the `aliveImpostors === 0` branch is checked first. -/
theorem claim2_counterexample :
    aliveCrewCount deadImpRoster ≤ aliveImpostorCount deadImpRoster ∧
    evaluateWin deadImpRoster ≠ .impostor ∧
    evaluateWin deadImpRoster = .crew := by decide

/-- Test session for C2: a four-agent playing roster whose run (dialogue
failing, zero jitter) votes out agent 3 at round 3 and agent 1 at round 6,
leaving one impostor against one crew member, so the loop exits with the
impostor-elimination result. -/
def c2session : GameSession :=
  { initialSession with
    gameState := .playing
    agents := [mkAgent 0 "A" true true 0,
      mkAgent 1 "B" true false (mkRat 1 10),
      mkAgent 2 "C" true false (mkRat 2 10),
      mkAgent 3 "D" true false (mkRat 9 10)] }

/-- C2 (amended): the evaluation returns `crew` exactly when the alive
impostor count is zero; `impostor` exactly when that count is nonzero
and at least the alive crew count; and `ongoing` otherwise. Moreover the
game loop ends on exactly these conditions: any run whose exit declares a
crew win leaves a final roster that evaluates to `crew` (zero alive
impostors), and any run whose exit carries the impostor-elimination
result leaves a final roster that evaluates to `impostor` (alive
impostors at least match alive crew). -/
theorem claim2_win_condition (agents : List Agent) (s : GameSession)
    (dialog : Nat → Option String) (jit : Nat → Nat → ℚ)
    (fuel : Nat) (payoutOk : Bool) :
    (evaluateWin agents = .crew ↔ aliveImpostorCount agents = 0) ∧
    (evaluateWin agents = .impostor ↔
      aliveImpostorCount agents ≠ 0 ∧
      aliveCrewCount agents ≤ aliveImpostorCount agents) ∧
    (evaluateWin agents = .ongoing ↔
      aliveImpostorCount agents ≠ 0 ∧
      aliveImpostorCount agents < aliveCrewCount agents) ∧
    (∀ m, (runGameLoop s dialog jit fuel payoutOk).exit = .ended true m →
      evaluateWin (runGameLoop s dialog jit fuel payoutOk).session.agents
        = .crew) ∧
    (∀ pw, (runGameLoop s dialog jit fuel payoutOk).exit
        = .ended pw .impostorElim →
      evaluateWin (runGameLoop s dialog jit fuel payoutOk).session.agents
        = .impostor) := by
  refine ⟨evaluateWin_eq_crew agents, evaluateWin_eq_impostor agents,
    evaluateWin_eq_ongoing agents, ?_, ?_⟩
  · simp only [runGameLoop]
    intro m hm
    obtain ⟨_, _, _, _, i5, _⟩ :=
      runRounds_inv dialog jit payoutOk (List.range' 1 maxRounds) s 0 fuel [] _ rfl
    exact (evaluateWin_eq_crew _).mpr (i5 m hm).2
  · simp only [runGameLoop]
    intro pw hm
    obtain ⟨_, _, _, _, _, _, _, _, _, _, _, _, _, i14⟩ :=
      runRounds_inv dialog jit payoutOk (List.range' 1 maxRounds) s 0 fuel [] _ rfl
    exact i14 pw hm

/-- Witness for C2: the loop-level impostor-elimination conjunct applied
to the concrete run from `c2session`, whose exit is decided by running
the loop. -/
theorem claim2_win_condition_witness :
    evaluateWin
        (runGameLoop c2session noDialog zeroJit 50 true).session.agents
      = .impostor :=
  (claim2_win_condition deadImpRoster c2session noDialog zeroJit
    50 true).2.2.2.2 false (by decide)

/-- C3 counterexample agents: a crew voter and two equally suspicious
candidates. -/
def c3voter : Agent := mkAgent 0 "V" true false 0
/-- First candidate in roster order. -/
def c3first : Agent := mkAgent 1 "X" true false (mkRat 1 2)
/-- Second candidate in roster order. -/
def c3second : Agent := mkAgent 2 "Y" true false (mkRat 1 2)

/-- C3, counterexample: with two equally suspicious candidates a
non-impostor voter targets the LAST one in roster order, not the first
as claimed — the JS `reduce` keeps `current` on ties. -/
theorem claim3_counterexample :
    c3first.suspicionLevel = c3second.suspicionLevel ∧
    pickTarget c3voter c3first [c3second] = c3second ∧
    c3second ≠ c3first := by decide

/-- C3 (amended): an impostor voter targets a living non-impostor of
minimal suspicion and a crew voter targets a living agent of maximal
suspicion, with ties resolved to the LAST such agent in roster order
(every later candidate is strictly worse); selection is a pure function
of the suspicion state. -/
theorem claim3_target_selection (voter o : Agent) (os : List Agent) :
    (voter.isImpostor = true →
      ∀ c cs, (o :: os).filter (fun a => !a.isImpostor) = c :: cs →
        (∀ x ∈ c :: cs,
          (pickTarget voter o os).suspicionLevel ≤ x.suspicionLevel) ∧
        ∃ l₁ l₂, c :: cs = l₁ ++ pickTarget voter o os :: l₂ ∧
          ∀ x ∈ l₂,
            (pickTarget voter o os).suspicionLevel < x.suspicionLevel) ∧
    (voter.isImpostor = false →
      (∀ x ∈ o :: os,
        x.suspicionLevel ≤ (pickTarget voter o os).suspicionLevel) ∧
      ∃ l₁ l₂, o :: os = l₁ ++ pickTarget voter o os :: l₂ ∧
        ∀ x ∈ l₂,
          x.suspicionLevel < (pickTarget voter o os).suspicionLevel) := by
  constructor
  · intro himp c cs hfil
    have hp : pickTarget voter o os = minSuspReduce c cs := by
      simp [pickTarget, himp, hfil]
    rw [hp]
    exact minSuspReduce_spec cs c
  · intro hcrew
    have hp : pickTarget voter o os = maxSuspReduce o os := by
      simp [pickTarget, hcrew]
    rw [hp]
    exact maxSuspReduce_spec os o

/-- C3 impostor-voter witness data. -/
def c3impVoter : Agent := mkAgent 0 "V" true true 0
/-- Crew candidate 1. -/
def c3crewA : Agent := mkAgent 1 "B" true false (mkRat 1 2)
/-- Crew candidate 2. -/
def c3crewB : Agent := mkAgent 2 "C" true false (mkRat 1 2)

/-- Witness for C3 at a concrete impostor voter with two tied crew
candidates. -/
theorem claim3_target_selection_witness :
    (∀ x ∈ [c3crewA, c3crewB],
      (pickTarget c3impVoter c3crewA [c3crewB]).suspicionLevel ≤ x.suspicionLevel) ∧
    ∃ l₁ l₂, [c3crewA, c3crewB] = l₁ ++ pickTarget c3impVoter c3crewA [c3crewB] :: l₂ ∧
      ∀ x ∈ l₂,
        (pickTarget c3impVoter c3crewA [c3crewB]).suspicionLevel < x.suspicionLevel :=
  (claim3_target_selection c3impVoter c3crewA [c3crewB]).1 rfl c3crewA [c3crewB]
    (by decide)

/-- C4: vote resolution. If no positive tally exists, nothing is
eliminated and a system entry records it; otherwise the winner is the
positive tally entry with maximal count — on ties the FIRST encountered
while scanning the tally in insertion order (every earlier entry is
strictly smaller) — exactly the agents carrying the winner's id get
`alive := false`, and the log records whether the eliminated agent was
the impostor. -/
theorem claim4_resolution (s : GameSession) (tally : List (Nat × Nat)) :
    (tally.filter (fun p => decide (0 < p.2)) = [] →
      resolveVotes s tally = addToLog s .system .noOneVotedOut) ∧
    (∀ e es, tally.filter (fun p => decide (0 < p.2)) = e :: es →
      (∀ p ∈ tally, ∃ a ∈ s.agents, a.id = p.1) →
      (∀ x ∈ e :: es, x.2 ≤ (maxVoteReduce e es).2) ∧
      (∃ l₁ l₂, e :: es = l₁ ++ maxVoteReduce e es :: l₂ ∧
        ∀ x ∈ l₁, x.2 < (maxVoteReduce e es).2) ∧
      0 < (maxVoteReduce e es).2 ∧
      ∃ a, s.agents.find? (fun x => x.id = (maxVoteReduce e es).1) = some a ∧
        a.id = (maxVoteReduce e es).1 ∧
        (resolveVotes s tally).agents = s.agents.map (fun ag =>
          if ag.id = (maxVoteReduce e es).1 then { ag with alive := false }
          else ag) ∧
        (resolveVotes s tally).gameLog = s.gameLog ++
          [{ kind := .system, msg := .votedOut a.name a.isImpostor,
             agent := none }]) := by
  constructor
  · intro hpos
    simp [resolveVotes, hpos]
  · intro e es hpos hids
    obtain ⟨hmax, l₁, l₂, hdec, hstrict⟩ := maxVoteReduce_spec es e
    have hw_mem_pos : maxVoteReduce e es ∈ e :: es := by
      rw [hdec]
      exact List.mem_append_right _ (List.mem_cons_self _ _)
    have hw_filter : maxVoteReduce e es ∈
        tally.filter (fun p => decide (0 < p.2)) := by
      rw [hpos]
      exact hw_mem_pos
    have hw_tally : maxVoteReduce e es ∈ tally :=
      List.mem_of_mem_filter hw_filter
    have hwpos : 0 < (maxVoteReduce e es).2 := by
      have := List.of_mem_filter hw_filter
      simpa using this
    obtain ⟨a, ha_mem, haid⟩ := hids _ hw_tally
    have hsome : (s.agents.find?
        (fun x => x.id = (maxVoteReduce e es).1)).isSome := by
      rw [List.find?_isSome]
      exact ⟨a, ha_mem, by simp [haid]⟩
    obtain ⟨b, hb⟩ := Option.isSome_iff_exists.mp hsome
    have hbid : b.id = (maxVoteReduce e es).1 := by
      have := List.find?_some hb
      simpa using this
    refine ⟨hmax, ⟨l₁, l₂, hdec, hstrict⟩, hwpos, b, hb, hbid, ?_, ?_⟩
    · simp [resolveVotes, hpos, hb, addToLog]
    · simp [resolveVotes, hpos, hb, addToLog]

/-- Roster and tally for the C4 witness: two agents, tied positive
tally; the first entry wins. -/
def c4session : GameSession :=
  { initialSession with agents := [mkAgent 0 "A" true true 0, mkAgent 1 "B" true false 0] }

/-- Witness for C4 at a tied two-entry tally. -/
theorem claim4_resolution_witness :
    0 < (maxVoteReduce (0, 2) [(1, 2)]).2 ∧
    (resolveVotes c4session [(0, 2), (1, 2)]).agents =
      c4session.agents.map (fun ag =>
        if ag.id = (maxVoteReduce (0, 2) [(1, 2)]).1 then { ag with alive := false }
        else ag) := by
  have h := (claim4_resolution c4session [(0, 2), (1, 2)]).2 (0, 2) [(1, 2)]
    (by decide) (by decide)
  obtain ⟨hmax, hdec, hpos, b, hb, hbid, hag, hlog⟩ := h
  exact ⟨hpos, hag⟩

/-- C5 counterexample speaker. -/
def c5speaker : Agent := mkAgent 0 "S" true false 0
/-- C5 counterexample listener: a dead agent. -/
def c5dead : Agent := mkAgent 1 "D" false false 0

/-- C5, counterexample: the suspicion update has no aliveness filter —
a dead agent's suspicion also changes (the accusatory keyword gives it
a +0.1 delta), so "exactly the other currently alive agents are
updated" fails. -/
theorem claim5_counterexample :
    c5dead.alive = false ∧
    updateSuspicionLevels c5speaker "suspicious" (fun _ => 0)
      [c5speaker, c5dead] ≠ [c5speaker, c5dead] := by
  refine ⟨rfl, ?_⟩
  intro h
  have h2 := congrArg (fun l => l.get? 1) h
  simp only [updateSuspicionLevels, List.map_cons, List.map_nil] at h2
  have hns : ¬ (c5dead.id = c5speaker.id) := by decide
  rw [if_neg hns] at h2
  simp only [List.get?] at h2
  injection h2 with h3
  have h4 := congrArg Agent.suspicionLevel h3
  simp only at h4
  rw [show (strHas (lowerStr "suspicious") (lowerStr c5dead.name) ||
      soundsSuspicious "suspicious") = true from rfl] at h4
  norm_num [c5speaker, c5dead, mkAgent, clamp01] at h4

lemma clamp01_bounds (x : ℚ) : 0 ≤ clamp01 x ∧ clamp01 x ≤ 1 := by
  unfold clamp01
  constructor
  · exact le_max_left _ _
  · exact max_le (by norm_num) (min_le_left _ _)

/-- C5 (amended): the suspicion update leaves the speaker's own entry
unchanged and rewrites EVERY other roster entry — alive or not, the
source has no aliveness filter — to `clamp(old + delta, 0, 1)`, where
delta is 0.1 when the lowercased text mentions the listener's name or
contains an accusation keyword (else 0), plus a further 0.05 when the
speaker is the impostor and the base delta is positive, plus the
jitter draw; the updated level always lies in [0, 1]. -/
theorem claim5_suspicion_update (speakingAgent : Agent) (message : String)
    (jit : Nat → ℚ) (agents : List Agent) (i : Nat) :
    (updateSuspicionLevels speakingAgent message jit agents).length =
      agents.length ∧
    (∀ a, agents.get? i = some a → a.id = speakingAgent.id →
      (updateSuspicionLevels speakingAgent message jit agents).get? i = some a) ∧
    (∀ a, agents.get? i = some a → a.id ≠ speakingAgent.id →
      ∃ b, (updateSuspicionLevels speakingAgent message jit agents).get? i =
          some b ∧
        b.id = a.id ∧ b.name = a.name ∧ b.alive = a.alive ∧
        b.isImpostor = a.isImpostor ∧
        b.suspicionLevel = clamp01 (a.suspicionLevel +
          ((if strHas (lowerStr message) (lowerStr a.name) ||
              soundsSuspicious message then (0.1 : ℚ) else 0) +
           (if speakingAgent.isImpostor = true ∧
               (0 : ℚ) < (if strHas (lowerStr message) (lowerStr a.name) ||
                 soundsSuspicious message then (0.1 : ℚ) else 0)
            then (0.05 : ℚ) else 0) +
           jit a.id)) ∧
        0 ≤ b.suspicionLevel ∧ b.suspicionLevel ≤ 1) := by
  have hsplit : ∀ base : ℚ,
      (if (speakingAgent.isImpostor && decide (0 < base)) = true
       then base + 0.05 else base) =
      base + (if speakingAgent.isImpostor = true ∧ (0 : ℚ) < base
              then (0.05 : ℚ) else 0) := by
    intro base
    cases him : speakingAgent.isImpostor
    · simp [him]
    · by_cases hb : (0 : ℚ) < base
      · simp [him, hb]
      · simp [him, hb]
  refine ⟨by simp [updateSuspicionLevels], ?_, ?_⟩
  · intro a ha hid
    simp only [updateSuspicionLevels, List.get?_map, ha, Option.map_some,
      Option.map]
    simp [hid]
  · intro a ha hid
    simp only [updateSuspicionLevels, List.get?_map, ha, Option.map_some,
      Option.map]
    rw [if_neg hid]
    refine ⟨_, rfl, rfl, rfl, rfl, rfl, ?_, ?_, ?_⟩
    · simp only
      rw [hsplit]
    · exact (clamp01_bounds _).1
    · exact (clamp01_bounds _).2

/-- Witness for C5 at a dead listener of a non-accusatory statement. -/
theorem claim5_suspicion_update_witness :
    ∃ b, (updateSuspicionLevels c5speaker "hello" (fun _ => 0)
        [c5speaker, c5dead]).get? 1 = some b ∧
      b.alive = c5dead.alive ∧ 0 ≤ b.suspicionLevel ∧ b.suspicionLevel ≤ 1 := by
  obtain ⟨b, h1, _, _, h4, _, _, h7, h8⟩ :=
    (claim5_suspicion_update c5speaker "hello" (fun _ => 0)
      [c5speaker, c5dead] 1).2.2 c5dead rfl (by decide)
  exact ⟨b, h1, h4, h7, h8⟩

/-- C7: when a dialogue call fails for an agent's turn, the fixed filler
line is logged for that agent, no suspicion delta is applied to any
agent, and the loop proceeds to the remaining agents; in particular a
round in which every dialogue call fails logs exactly one filler entry
per living agent, leaves every suspicion level untouched, and completes
normally. -/
theorem claim7_dialogue_failure :
    (∀ (dialog : Nat → Option String) (jit : Nat → Nat → ℚ) (s : GameSession)
       (agent : Agent) (rest : List Agent) (turn fuel : Nat),
      fuel ≠ 0 → dialog turn = none →
      statementsPhase dialog jit (agent :: rest) s turn fuel =
        statementsPhase dialog jit rest
          (addToLog s .agentMsg (.statement fillerText) (some agent))
          (turn + 1) (fuel - 1)) ∧
    (∀ (jit : Nat → Nat → ℚ) (snapshot : List Agent) (s : GameSession)
       (turn fuel : Nat),
      snapshot.length ≤ fuel →
      statementsPhase (fun _ => none) jit snapshot s turn fuel =
        ({ s with gameLog := s.gameLog ++ snapshot.map fillerEntry },
         turn + snapshot.length, fuel - snapshot.length, true)) := by
  constructor
  · intro dialog jit s agent rest turn fuel hf hd
    simp [statementsPhase, hf, hd, addToLog]
  · exact statementsPhase_allFail

/-- Session for the C7 witness. -/
def c7session : GameSession := { initialSession with gameState := .playing }

/-- Witness for C7: a two-agent snapshot with every dialogue call
failing. -/
theorem claim7_dialogue_failure_witness :
    statementsPhase noDialog zeroJit [c3voter, c3first] c7session 0 5 =
      ({ c7session with
          gameLog := c7session.gameLog ++ [c3voter, c3first].map fillerEntry },
       0 + [c3voter, c3first].length, 5 - [c3voter, c3first].length, true) :=
  claim7_dialogue_failure.2 zeroJit [c3voter, c3first] c7session 0 5 (by decide)

/-- C10: the start action's validation rejects — before the escrow
transfer is attempted (the returned flag is `false`) — every session
whose wallet address or private key is empty, whose wager is below
0.1 STX, whose balance is not loaded, or whose wager exceeds the loaded
balance; on rejection an error is surfaced and the roster, phase and
log are unchanged. -/
theorem claim10_start_validation (s : GameSession) :
    ((startGameCheck s).2 = true ↔
      (¬ s.userAddress = "" ∧ ¬ s.userPrivateKey = "" ∧
       ¬ s.betAmount < 0.1 ∧
       ∃ b, s.userBalance = some b ∧ ¬ b < s.betAmount)) ∧
    ((startGameCheck s).2 = false →
      (startGameCheck s).1.error.isSome = true ∧
      (startGameCheck s).1.agents = s.agents ∧
      (startGameCheck s).1.gameState = s.gameState ∧
      (startGameCheck s).1.gameLog = s.gameLog) := by
  unfold startGameCheck
  by_cases h1 : s.userAddress = ""
  · simp [h1]
  · by_cases h2 : s.userPrivateKey = ""
    · simp [h1, h2]
    · by_cases h3 : s.betAmount < 0.1
      · simp [h1, h2, h3]
      · cases hb : s.userBalance with
        | none => simp [h1, h2, h3, hb]
        | some b =>
            by_cases h4 : b < s.betAmount
            · simp [h1, h2, h3, hb, h4]
            · simp [h1, h2, h3, hb, h4]
              exact le_of_not_lt h4

/-- Witness for C10: the pristine session (empty wallet address) is
rejected with its roster untouched. -/
theorem claim10_start_validation_witness :
    (startGameCheck initialSession).1.error.isSome = true ∧
    (startGameCheck initialSession).1.agents = initialSession.agents ∧
    (startGameCheck initialSession).1.gameState = initialSession.gameState := by
  have h := (claim10_start_validation initialSession).2 (by decide)
  exact ⟨h.1, h.2.1, h.2.2.1⟩

/-- C1: over any full game-loop run, the payout transfer is issued
exactly once — with amount `wager * 1.8`, from the game address to the
user — if and only if the loop ended with the crew-win result, which
happens only when no alive impostor remains; on either impostor-win
result no payout call is made and the wager-loss line is logged; a
cancelled run makes no payout either. -/
theorem claim1_settlement (s : GameSession) (dialog : Nat → Option String)
    (jit : Nat → Nat → ℚ) (fuel : Nat) (payoutOk : Bool) :
    ((runGameLoop s dialog jit fuel payoutOk).payouts =
      match (runGameLoop s dialog jit fuel payoutOk).exit with
      | .ended true _ =>
          [{ fromAddr := gameAddress, toAddr := s.userAddress,
             amount := s.betAmount * 1.8 }]
      | _ => []) ∧
    (∀ m, (runGameLoop s dialog jit fuel payoutOk).exit = .ended true m →
      m = .crewWin ∧
      aliveImpostorCount (runGameLoop s dialog jit fuel payoutOk).session.agents = 0) ∧
    (∀ m, (runGameLoop s dialog jit fuel payoutOk).exit = .ended false m →
      (runGameLoop s dialog jit fuel payoutOk).payouts = [] ∧
      ({ kind := .system, msg := .lostBet s.betAmount, agent := none } : LogEntry)
        ∈ (runGameLoop s dialog jit fuel payoutOk).session.gameLog) ∧
    ((runGameLoop s dialog jit fuel payoutOk).exit = .stopped →
      (runGameLoop s dialog jit fuel payoutOk).payouts = []) := by
  simp only [runGameLoop]
  obtain ⟨i1, i2, i3, i4, i5, i6, i7, i8, i9, i10, i11, i12, i13, i14⟩ :=
    runRounds_inv dialog jit payoutOk (List.range' 1 maxRounds) s 0 fuel [] _ rfl
  refine ⟨i4, i5, ?_, ?_⟩
  · intro m hm
    refine ⟨?_, i6 m hm⟩
    rw [i4, hm]
  · intro hstop
    rw [i4, hstop]

/-- Roster for the C1 witness: the impostor carries the top suspicion,
so all three crew votes fall on it at the round-3 vote. -/
def crewWinRoster : List Agent :=
  [mkAgent 0 "A" true true (mkRat 9 10), mkAgent 1 "B" true false (mkRat 1 10),
   mkAgent 2 "C" true false (mkRat 2 10), mkAgent 3 "D" true false (mkRat 3 10)]

/-- Session for the C1 witness. -/
def crewWinSession : GameSession :=
  { gameState := .playing, betAmount := 0.5, userAddress := "user-addr",
    userPrivateKey := "user-key", agents := crewWinRoster,
    selectedImpostor := some 0, gameLog := [], round := 0,
    userBalance := some 10, error := none, isGameRunning := true }

/-- Witness for C1: a concrete crew-win run pays out exactly once. -/
theorem claim1_settlement_witness :
    aliveImpostorCount
      (runGameLoop crewWinSession noDialog zeroJit 50 true).session.agents = 0 ∧
    (runGameLoop crewWinSession noDialog zeroJit 50 true).payouts =
      [{ fromAddr := gameAddress, toAddr := crewWinSession.userAddress,
         amount := crewWinSession.betAmount * 1.8 }] := by
  have h := claim1_settlement crewWinSession noDialog zeroJit 50 true
  have hex : (runGameLoop crewWinSession noDialog zeroJit 50 true).exit =
      .ended true .crewWin := by decide
  refine ⟨(h.2.1 .crewWin hex).2, ?_⟩
  rw [h.1, hex]

/-- C6: exactly one impostor. Roster creation assigns distinct ids; the
selection action marks exactly one agent (the one carrying the chosen
id) as impostor; neither the suspicion update nor a voting phase
touches any agent's `isImpostor` flag; and a full game run started from
the selection preserves the impostor count, so exactly one impostor
exists throughout `playing` and `finished`. -/
theorem claim6_impostor_invariant :
    (∀ count initSusp,
      ((initializeAgents count initSusp).map (fun a => a.id)).Nodup) ∧
    (∀ (s : GameSession) (agentId : Nat),
      agentId ∈ s.agents.map (fun a => a.id) →
      (s.agents.map (fun a => a.id)).Nodup →
      impostorCount (selectImpostor s agentId).agents = 1) ∧
    (∀ sp m jit agents,
      impMap (updateSuspicionLevels sp m jit agents) = impMap agents) ∧
    (∀ s fuel, impMap (conductVoting s fuel).1.agents = impMap s.agents) ∧
    (∀ (s : GameSession) (dialog : Nat → Option String) (jit : Nat → Nat → ℚ)
       (fuel : Nat) (payoutOk : Bool) (R : RunResult),
      startAmongUsGame s dialog jit fuel payoutOk = .inr R →
      impostorCount R.session.agents = impostorCount s.agents) := by
  refine ⟨initializeAgents_ids_nodup, selectImpostor_count,
    impMap_updateSuspicionLevels, ?_, ?_⟩
  · intro s fuel
    exact (conductVoting_spec s fuel _ _ rfl).2.2.2.2.1
  · intro s dialog jit fuel payoutOk R h
    unfold startAmongUsGame at h
    cases hsel : s.selectedImpostor with
    | none =>
        rw [hsel] at h
        simp at h
    | some selId =>
        rw [hsel] at h
        simp only at h
        injection h with h'
        obtain ⟨_, _, i3, _⟩ :=
          runRounds_inv dialog jit payoutOk (List.range' 1 maxRounds) _ 0 fuel [] _ h'
        exact impostorCount_of_impMap i3

/-- Session for the C6 witness: roster freshly initialized, nothing
selected yet. -/
def c6session : GameSession :=
  { initialSession with
    gameState := .selectImpostor
    agents := initializeAgents 4 (fun _ => 0) }

/-- Witness for C6: selecting agent 2 on a fresh 4-agent roster yields
exactly one impostor. -/
theorem claim6_impostor_invariant_witness :
    impostorCount (selectImpostor c6session 2).agents = 1 :=
  claim6_impostor_invariant.2.1 c6session 2 (by decide) (by decide)

/-- Playing-phase session for the C8 counterexample and witness. -/
def c8session : GameSession :=
  { gameState := .playing, betAmount := 0.5, userAddress := "u",
    userPrivateKey := "k", agents := crewWinRoster, selectedImpostor := some 0,
    gameLog := [], round := 0, userBalance := some 10, error := none,
    isGameRunning := true }

/-- C8, counterexample: when cancellation is observed before an agent's
turn (here before the second agent of round 1), `runGameLoop` returns
without calling `endGame` — the session stays in `playing` and never
reaches `finished`, contradicting the claim. -/
theorem claim8_counterexample :
    (runGameLoop c8session noDialog zeroJit 2 true).exit = .stopped ∧
    (runGameLoop c8session noDialog zeroJit 2 true).session.gameState = .playing ∧
    (runGameLoop c8session noDialog zeroJit 2 true).session.gameState ≠ .finished := by
  decide

/-- C8 (amended): the cancellation flag is consulted at each round
start, before each agent's turn and before each vote (each check
consumes one unit of the fuel oracle); once it reads false no further
statements, votes or rounds occur — their total is bounded by the fuel.
The stop action clears the running flag and writes the cancellation log
entry. But the loop reaches `finished` only via `endGame`: when the
false reading happens during the statement loop the session simply
keeps its phase (`playing`), with no payout; when it happens at a round
boundary the loop falls through to the surviving-impostor `endGame`
(declaring that winner); no payout occurs in either case. -/
theorem claim8_cancellation (s : GameSession) (dialog : Nat → Option String)
    (jit : Nat → Nat → ℚ) (fuel : Nat) (payoutOk : Bool) :
    ((stopGame s).isGameRunning = false ∧
     (stopGame s).gameLog = s.gameLog ++
       [{ kind := .system, msg := .stoppedByUser, agent := none }]) ∧
    countLog isAgentKind (runGameLoop s dialog jit fuel payoutOk).session.gameLog +
        countLog isVoteKind (runGameLoop s dialog jit fuel payoutOk).session.gameLog +
        (runGameLoop s dialog jit fuel payoutOk).roundsEntered.length
      ≤ countLog isAgentKind s.gameLog + countLog isVoteKind s.gameLog + fuel ∧
    ((runGameLoop s dialog jit fuel payoutOk).exit = .stopped →
      (runGameLoop s dialog jit fuel payoutOk).session.gameState = s.gameState ∧
      (runGameLoop s dialog jit fuel payoutOk).payouts = []) ∧
    (∀ m, (runGameLoop s dialog jit fuel payoutOk).exit = .ended false m →
      (runGameLoop s dialog jit fuel payoutOk).payouts = []) := by
  simp only [runGameLoop]
  obtain ⟨i1, i2, i3, i4, i5, i6, i7, i8, i9, i10, i11, i12, i13, i14⟩ :=
    runRounds_inv dialog jit payoutOk (List.range' 1 maxRounds) s 0 fuel [] _ rfl
  refine ⟨⟨rfl, rfl⟩, ?_, ?_, ?_⟩
  · simp only [List.length_nil] at i12
    omega
  · intro hstop
    refine ⟨i9 hstop, ?_⟩
    rw [i4, hstop]
  · intro m hm
    rw [i4, hm]

/-- Witness for C8: the cancelled run of the counterexample session
keeps its phase and pays nothing. -/
theorem claim8_cancellation_witness :
    (runGameLoop c8session noDialog zeroJit 2 true).session.gameState =
      c8session.gameState ∧
    (runGameLoop c8session noDialog zeroJit 2 true).payouts = [] :=
  (claim8_cancellation c8session noDialog zeroJit 2 true).2.2.1 (by decide)

/-- C9: the round counter starts at 0; the rounds entered by any run
are exactly 1, 2, …, k for some k ≤ maxRounds = 8 (each entered round
increments the counter by exactly one and the cap is never exceeded);
and when all 8 rounds were entered and the loop ended via `endGame`,
the result is the surviving-impostor loss, whose GAME OVER line is
logged exactly once. -/
theorem claim9_round_bound (s : GameSession) (dialog : Nat → Option String)
    (jit : Nat → Nat → ℚ) (fuel : Nat) (payoutOk : Bool) :
    initialSession.round = 0 ∧
    (runGameLoop s dialog jit fuel payoutOk).roundsEntered =
      List.range' 1 (runGameLoop s dialog jit fuel payoutOk).roundsEntered.length ∧
    (runGameLoop s dialog jit fuel payoutOk).roundsEntered.length ≤ maxRounds ∧
    (∀ pw m,
      (runGameLoop s dialog jit fuel payoutOk).roundsEntered.length = maxRounds →
      (runGameLoop s dialog jit fuel payoutOk).exit = .ended pw m →
      pw = false ∧ m = .impostorSurvive ∧
      (countLog isSurviveOver s.gameLog = 0 →
        countLog isSurviveOver
          (runGameLoop s dialog jit fuel payoutOk).session.gameLog = 1)) := by
  simp only [runGameLoop]
  obtain ⟨i1, i2, i3, i4, i5, i6, i7, i8, i9, i10, i11, i12, i13, i14⟩ :=
    runRounds_inv dialog jit payoutOk (List.range' 1 maxRounds) s 0 fuel [] _ rfl
  obtain ⟨k, hk, hke⟩ := i7
  rw [range'_length] at hk
  have hke' : (runRounds dialog jit payoutOk (List.range' 1 maxRounds)
      s 0 fuel []).roundsEntered = List.range' 1 k := by
    rw [hke, List.nil_append, range'_take k maxRounds 1 hk]
  have hlen : (runRounds dialog jit payoutOk (List.range' 1 maxRounds)
      s 0 fuel []).roundsEntered.length = k := by
    rw [hke', range'_length]
  refine ⟨rfl, ?_, ?_, ?_⟩
  · rw [hke', range'_length]
  · rw [hlen]
    exact hk
  · intro pw m h8 hex
    have hksurv : m = .impostorSurvive := by
      by_contra hne
      obtain ⟨r, hr, hlast, hmod⟩ := i13 pw m hex hne
      rw [hke'] at hlast
      rw [hlen] at h8
      subst h8
      have : (List.range' 1 maxRounds).getLast? = some 8 := by decide
      rw [this] at hlast
      injection hlast with hr8
      rw [← hr8] at hmod
      simp at hmod
    have hpw : pw = false := by
      cases pw
      · rfl
      · exact absurd ((i5 m hex).1 ▸ hksurv) (by simp)
    refine ⟨hpw, hksurv, ?_⟩
    intro h0
    rw [i8, h0, hex, hpw, hksurv]
    simp [exitSurvive]

/-- Roster for the C9 witness: the impostor keeps the lowest suspicion,
so the round-3 and round-6 votes eliminate crew members and the game
reaches the round cap with the impostor alive. -/
def surviveRoster : List Agent :=
  [mkAgent 0 "A" true true 0, mkAgent 1 "B" true false (mkRat 1 10),
   mkAgent 2 "C" true false (mkRat 2 10), mkAgent 3 "D" true false (mkRat 3 10),
   mkAgent 4 "E" true false (mkRat 9 10)]

/-- Session for the C9 witness. -/
def c9session : GameSession :=
  { gameState := .playing, betAmount := 0.5, userAddress := "u",
    userPrivateKey := "k", agents := surviveRoster, selectedImpostor := some 0,
    gameLog := [], round := 0, userBalance := some 10, error := none,
    isGameRunning := true }

/-- Witness for C9: a full 8-round run in which the impostor survives
logs the surviving-impostor GAME OVER line exactly once. -/
theorem claim9_round_bound_witness :
    countLog isSurviveOver
      (runGameLoop c9session noDialog zeroJit 100 true).session.gameLog = 1 := by
  have h := claim9_round_bound c9session noDialog zeroJit 100 true
  exact (h.2.2.2 false .impostorSurvive (by decide) (by decide)).2.2 (by decide)
